import Mathlib

/-!
Shallow embedding of the configuration-resolution and transfer-scheduling
core of the vscode-sftp extension (modules `fileService.ts` and `config.ts`),
together with theorems checking the natural-language specification against it.

Configuration objects are modelled as association lists from string keys to
JSON-like values (JavaScript objects have unique keys; lookups and updates
always act on the first occurrence, so duplicate keys never arise from the
operations below).  External collaborators (the user-settings remote map, the
filesystem, the environment, the ssh-config parser and the gitignore-style
matcher) are passed in explicitly as an `Extern` record of pure functions.
-/

namespace VSftp

/-- JSON-like runtime value, covering every shape the configuration code
stores in a config object. `vNull` also stands in for JavaScript `NaN`
in the result of a failed `parseInt`. -/
inductive JValue where
  | vNull
  | vBool (b : Bool)
  | vNum (n : Int)
  | vStr (s : String)
  | vArr (xs : List JValue)
  | vObj (fields : List (String × JValue))
  deriving Repr

/-- A JavaScript object: association list of key/value pairs. -/
abbrev ConfigObj := List (String × JValue)

/-- Property read `obj[key]`: first matching entry, `none` = `undefined`. -/
def lookupKey : ConfigObj → String → Option JValue
  | [], _ => none
  | (k, v) :: rest, key => if k = key then some v else lookupKey rest key

/-- Property write `obj[key] = v`: replace the first matching entry, or
append when the key is absent. -/
def setKey : ConfigObj → String → JValue → ConfigObj
  | [], key, v => [(key, v)]
  | (k, w) :: rest, key, v =>
    if k = key then (key, v) :: rest else (k, w) :: setKey rest key v

/-- Property delete `delete obj[key]`. -/
def eraseKey : ConfigObj → String → ConfigObj
  | [], _ => []
  | (k, w) :: rest, key =>
    if k = key then eraseKey rest key else (k, w) :: eraseKey rest key

/-! ### String and path utilities

The code uses node's `path` module (and the posix-flavoured `upath` wrapper)
on a posix platform; both are modelled by the same segment-based functions
below.  All recursions are structural so every definition reduces inside the
kernel. -/

/-- Models JavaScript `s.startsWith(p)` via `p.data.isPrefixOf s.data`. -/
def strStartsWith (s p : String) : Bool := p.data.isPrefixOf s.data

/-- Split a character list at `'/'` (accumulator holds the current segment
reversed). -/
def splitOnSlashAux : List Char → List Char → List String
  | acc, [] => [String.mk acc.reverse]
  | acc, c :: rest =>
    if c = '/' then String.mk acc.reverse :: splitOnSlashAux [] rest
    else splitOnSlashAux (c :: acc) rest

/-- Path segments of `s`, dropping empty segments and `"."`. -/
def cleanSegs (s : String) : List String :=
  (splitOnSlashAux [] s.data).filter (fun x => x != "" && x != ".")

/-- Resolve `".."` segments against a stack of already-accepted segments.
For an absolute path a leading `".."` is dropped at the root. -/
def resolveDots (isAbs : Bool) : List String → List String → List String
  | stack, [] => stack.reverse
  | stack, seg :: rest =>
    if seg = ".." then
      match stack with
      | [] =>
        if isAbs then resolveDots isAbs [] rest
        else resolveDots isAbs [".."] rest
      | top :: stack2 =>
        if top = ".." then resolveDots isAbs (seg :: top :: stack2) rest
        else resolveDots isAbs stack2 rest
    else resolveDots isAbs (seg :: stack) rest

/-- Join segments with `'/'`. -/
def joinSlash : List String → String
  | [] => ""
  | [x] => x
  | x :: xs => x ++ "/" ++ joinSlash xs

/-- Model of `path.normalize` / `upath.normalize` (posix): removes `"."`
segments (in particular a leading `"./"`), resolves `".."` and collapses
repeated separators.  Trailing-separator preservation is elided. -/
def pathNormalize (s : String) : String :=
  let isAbs := strStartsWith s "/"
  let core := joinSlash (resolveDots isAbs [] (cleanSegs s))
  if isAbs then "/" ++ core else if core = "" then "." else core

/-- Segments of a path treated as absolute. -/
def pathAbsSegs (s : String) : List String := resolveDots true [] (cleanSegs s)

/-- Relative segments from `src` to `dst`. -/
def relSegs : List String → List String → List String
  | [], ts => ts
  | f :: fr, [] => (f :: fr).map (fun _ => "..")
  | f :: fr, t :: tr =>
    if f = t then relSegs fr tr
    else ((f :: fr).map (fun _ => "..")) ++ (t :: tr)

/-- Model of `path.relative` / `upath.relative` (posix) on absolute paths:
strip the common prefix, go up for what remains of `src`, then down into
`dst`.  Empty exactly when both paths resolve to the same location. -/
def pathRelative (src dst : String) : String :=
  joinSlash (relSegs (pathAbsSegs src) (pathAbsSegs dst))

/-- Lower-case a string (ssh-config parameter names are compared
case-insensitively). -/
def toLowerStr (s : String) : String := String.mk (s.data.map Char.toLower)

/-- Whitespace test used by the model of `String.prototype.trim`. -/
def isWS (c : Char) : Bool := c = ' ' || c = '\t' || c = '\r' || c = '\n'

/-- Model of JavaScript `s.trim()`. -/
def trimStr (s : String) : String :=
  String.mk (((s.data.dropWhile isWS).reverse.dropWhile isWS).reverse)

/-- Drop a trailing carriage return (the accumulator is reversed, so the
trailing `'\r'` is its head). -/
def chompCR : List Char → List Char
  | '\r' :: cs => cs
  | cs => cs

/-- Split at `'\n'`, removing a `'\r'` right before it. -/
def splitLinesAux : List Char → List Char → List String
  | acc, [] => [String.mk acc.reverse]
  | acc, c :: rest =>
    if c = '\n' then String.mk (chompCR acc).reverse :: splitLinesAux [] rest
    else splitLinesAux (c :: acc) rest

/-- Model of `content.split(/\r?\n/g)`. -/
def splitLines (s : String) : List String := splitLinesAux [] s.data

/-- Decimal value of a digit run. -/
def digitsVal : List Char → Nat → Nat
  | [], acc => acc
  | c :: cs, acc => digitsVal cs (acc * 10 + (c.toNat - 48))

/-- Model of `parseInt(s, 10)`: parse the longest leading digit run (with an
optional sign); `none` models `NaN`.  Leading-whitespace skipping is elided. -/
def parseIntString (s : String) : Option Int :=
  match s.data with
  | '-' :: rest =>
    let ds := rest.takeWhile (fun c => c.isDigit)
    if ds.length = 0 then none else some (-(digitsVal ds 0 : Int))
  | cs =>
    let ds := cs.takeWhile (fun c => c.isDigit)
    if ds.length = 0 then none else some ((digitsVal ds 0 : Int))

/-- Model of `parseInt(value, 10)` on a runtime value: numbers pass through (ports are
integers in practice), strings are parsed, anything else is `NaN` (`vNull`). -/
def parseIntTen : JValue → JValue
  | .vNum n => .vNum n
  | .vStr s =>
    match parseIntString s with
    | some n => .vNum n
    | none => .vNull
  | _ => .vNull

/-! ### External collaborators

`fileService.ts` reaches out to the user-settings remote map, the filesystem
(ignore files and ssh-config files, behind the process-wide content cache —
modelled as a single read-through lookup), the process environment, the
`ssh-config` parsing library and the gitignore-style `Ignore` matcher.  All
of them are bundled into one record of pure functions. -/

structure Extern where
  /-- Source call `getUserSetting(SETTING_KEY_REMOTE).get(name)`: the externally declared
  "remote" definitions, as raw key/value entries in declaration order. -/
  remoteMap : String → Option (List (String × JValue))
  /-- Read-through view of `app.fsCache` + `fs.readFileSync`: file content by
  path, `none` when the file does not exist or cannot be read. -/
  readFile : String → Option String
  /-- Modelled from the spec: the external `ssh-config` library's
  `parse(content).find(\x7bHost: host\x7d)`, returning the matched section's
  `(param, value)` lines. -/
  sshSectionFor : String → String → Option (List (String × String))
  /-- Environment lookup `process.env`. -/
  env : String → Option String
  /-- Home directory used by `replaceHomePath`. -/
  homeDir : String
  /-- Modelled from the spec: `Ignore.from(patterns).ignores(relPath)`, the
  compiled gitignore-style glob rule set (module `./ignore`, not part of the
  excerpted source). -/
  ignoreFrom : List String → String → Bool

/-- Modelled from the spec: helper `replaceHomePath` (module `../helper`, not
part of the excerpted source) expands a leading `~` to the home directory. -/
def replaceHomePath (homeDir s : String) : String :=
  if strStartsWith s "~" then homeDir ++ String.mk (s.data.drop 1) else s

/-- Modelled from the spec: helper `resolvePath` (module `../helper`, not part
of the excerpted source) resolves a possibly-relative path against the
workspace root ("private-key and ignore-file paths are resolved relative to
the workspace root"). -/
def resolvePath (workspace p : String) : String :=
  if strStartsWith p "/" then p else workspace ++ "/" ++ p

/-! ### Configuration merging (`fileService.ts`) -/

/-- Source function `chooseDefaultPort(protocol)`: `protocol === 'ftp' ? 21 : 22`.  The call
site passes `serviceConfig.protocol`, which may be `undefined`. -/
def chooseDefaultPort : Option JValue → Int
  | some (.vStr "ftp") => 21
  | _ => 22

/-- Source function `setConfigValue(config, key, value)`: set-if-undefined; a `port` value is
passed through `parseInt(value, 10)` when it is set. -/
def setConfigValue (config : ConfigObj) (key : String) (v : JValue) : ConfigObj :=
  match lookupKey config key with
  | some _ => config
  | none => if key = "port" then setKey config key (parseIntTen v) else setKey config key v

/-- Key rename applied to external "remote" definitions:
`scheme` becomes `protocol`. -/
def remoteTargetKey (k : String) : String := if k = "scheme" then "protocol" else k

/-- The `Object.entries(remote).forEach` loop of `mergeConfigWithExternalRefer`:
skip `rootPath`, rename via `remoteTargetKey`, then `setConfigValue`. -/
def applyRemoteEntries (config : ConfigObj) : List (String × JValue) → ConfigObj
  | [] => config
  | (k, v) :: rest =>
    if k = "rootPath" then applyRemoteEntries config rest
    else applyRemoteEntries (setConfigValue config (remoteTargetKey k) v) rest

/-- The `if (config.remote)` phase of `mergeConfigWithExternalRefer`: fetch
the referenced remote definition and merge it; a missing definition is a
thrown error.  (`remote` is typed `string`; a blank string is falsy.) -/
def mergeRemoteRefer (ext : Extern) (config : ConfigObj) : Except String ConfigObj :=
  match lookupKey config "remote" with
  | some (.vStr name) =>
    if name = "" then .ok config
    else
      match ext.remoteMap name with
      | none => .error ("Cannot find remote configuration for \"" ++ name ++ "\".")
      | some rem => .ok (applyRemoteEntries config rem)
  | _ => .ok config

def DEFAULT_SSHCONFIG_FILE : String := "~/.ssh/config"

/-- The ssh-config key mapping of `mergeConfigWithExternalRefer` (parameter
names already lower-cased). -/
def sshKeyMapping (p : String) : Option String :=
  if p = "hostname" then some "host"
  else if p = "port" then some "port"
  else if p = "user" then some "username"
  else if p = "identityfile" then some "privateKeyPath"
  else if p = "serveraliveinterval" then some "keepalive"
  else if p = "connecttimeout" then some "connTimeout"
  else none

/-- The `section.config.forEach` loop: `hostname` overwrites `host`
unconditionally, every other mapped key is set only if undefined. -/
def applySshLines : ConfigObj → List (String × String) → ConfigObj
  | c, [] => c
  | c, (param, value) :: rest =>
    if param = "" then applySshLines c rest
    else
      match sshKeyMapping (toLowerStr param) with
      | some key =>
        if key = "host" then applySshLines (setKey c "host" (.vStr value)) rest
        else applySshLines (setConfigValue c key (.vStr value)) rest
      | none => applySshLines c rest

/-- The `host` field as a string (typed `string` in the source). -/
def hostStrOf (c : ConfigObj) : String :=
  match lookupKey c "host" with
  | some (.vStr h) => h
  | _ => ""

/-- Source function `mergeConfigWithExternalRefer(config)`: merge the external "remote"
definition, then — only when the *original* config's protocol is `sftp` —
overlay the matching ssh-config section onto the merged config.  A failure to
read the ssh-config file is non-fatal. -/
def mergeConfigWithExternalRefer (ext : Extern) (config : ConfigObj) :
    Except String ConfigObj :=
  match mergeRemoteRefer ext config with
  | .error e => .error e
  | .ok mergedConfig =>
    match lookupKey config "protocol" with
    | some (.vStr "sftp") =>
      let sshPathRaw :=
        match lookupKey config "sshConfigPath" with
        | some (.vStr s) => if s = "" then DEFAULT_SSHCONFIG_FILE else s
        | _ => DEFAULT_SSHCONFIG_FILE
      let sshConfigPath := replaceHomePath ext.homeDir sshPathRaw
      match ext.readFile sshConfigPath with
      | none => .ok mergedConfig
      | some content =>
        match ext.sshSectionFor content (hostStrOf mergedConfig) with
        | none => .ok mergedConfig
        | some lines => .ok (applySshLines mergedConfig lines)
    | _ => .ok mergedConfig

/-- Substring `agent.slice(1)`. -/
def dropFirstChar (s : String) : String := String.mk (s.data.drop 1)

/-- Statement `mergedConfig.remotePath = upath.normalize(mergedConfig.remotePath)`
of `getCompleteConfig`.  A missing `remotePath` would make `upath.normalize`
throw a `TypeError` in JavaScript. -/
def normalizeRemotePathStep (mc : ConfigObj) : Except String ConfigObj :=
  match lookupKey mc "remotePath" with
  | some (.vStr rp) => .ok (setKey mc "remotePath" (.vStr (pathNormalize rp)))
  | _ => .error "TypeError: remotePath must be a string"

/-- Statement `if (mergedConfig.privateKeyPath) ... resolvePath(workspace, ...)`
of `getCompleteConfig`. -/
def resolvePrivateKeyStep (workspace : String) (c : ConfigObj) : ConfigObj :=
  match lookupKey c "privateKeyPath" with
  | some (.vStr pk) =>
    if pk = "" then c else setKey c "privateKeyPath" (.vStr (resolvePath workspace pk))
  | _ => c

/-- Statement `if (mergedConfig.ignoreFile) ... resolvePath(workspace, ...)`
of `getCompleteConfig`. -/
def resolveIgnoreFileStep (workspace : String) (c : ConfigObj) : ConfigObj :=
  match lookupKey c "ignoreFile" with
  | some (.vStr f) =>
    if f = "" then c else setKey c "ignoreFile" (.vStr (resolvePath workspace f))
  | _ => c

/-- Statement `if (mergedConfig.agent && mergedConfig.agent.startsWith('$'))`
of `getCompleteConfig`: expand the environment variable, throwing when it is
unset (or empty — both are falsy). -/
def resolveAgentStep (ext : Extern) (c : ConfigObj) : Except String ConfigObj :=
  match lookupKey c "agent" with
  | some (.vStr agent) =>
    if (agent != "") && strStartsWith agent "$" then
      let envVarName := dropFirstChar agent
      match ext.env envVarName with
      | some v =>
        if v = "" then .error ("Environment variable \"" ++ envVarName ++ "\" not found")
        else .ok (setKey c "agent" (.vStr v))
      | none => .error ("Environment variable \"" ++ envVarName ++ "\" not found")
    else .ok c
  | _ => .ok c

/-- Source function `getCompleteConfig(config, workspace)`: external merge, then remote-path
normalization, workspace-relative resolution of `privateKeyPath` and
`ignoreFile`, and `$VAR` expansion of `agent`, in source order (the
agent/private-key conflict only logs a warning and is elided). -/
def getCompleteConfig (ext : Extern) (config : ConfigObj) (workspace : String) :
    Except String ConfigObj :=
  match mergeConfigWithExternalRefer ext config with
  | .error e => .error e
  | .ok mergedConfig =>
    match normalizeRemotePathStep mergedConfig with
    | .error e => .error e
    | .ok c1 =>
      resolveAgentStep ext (resolveIgnoreFileStep workspace (resolvePrivateKeyStep workspace c1))

/-- One step of the `Object.keys(source).forEach` loop of `mergeProfile`:
`ignore` gets array-aware treatment, every other key is overwritten from the
source. -/
def mergeProfileStep (res : ConfigObj) (kv : String × JValue) : ConfigObj :=
  if kv.1 = "ignore" then
    match lookupKey res "ignore", kv.2 with
    | some (.vArr a), .vArr b => setKey res "ignore" (.vArr (a ++ b))
    | _, .vArr b => setKey res "ignore" (.vArr b)
    | _, _ => setKey res "ignore" (.vArr [])
  else setKey res kv.1 kv.2

/-- Source function `mergeProfile(target, source)`: shallow-copy the target without its
`profiles` key, then overlay every source key (with the special `ignore`
handling of `mergeProfileStep`). -/
def mergeProfile (target source : ConfigObj) : ConfigObj :=
  source.foldl mergeProfileStep (eraseKey target "profiles")

/-! ### Schema validation (`config.ts`) -/

/-- The `message` property of a Joi validation error (the Joi library itself
is an external collaborator; its verdict is a parameter below). -/
structure JoiError where
  message : String
  deriving Repr, DecidableEq

/-- The object returned by `validateConfig`. -/
structure ValidationResult where
  message : String
  deriving Repr, DecidableEq

/-- Source function `validateConfig(config)`: run the Joi schema (`joiValidate` models
`configScheme.validate`, returning the error when the schema rejects) and
wrap the outcome.  The result type is `Option` so that returning `undefined`
is representable; the function always returns `some`. -/
def validateConfig (joiValidate : ConfigObj → Option JoiError) (config : ConfigObj) :
    Option ValidationResult :=
  match joiValidate config with
  | some error => some { message := error.message }
  | none => some { message := "Validation passed." }

/-! ### Ignore predicate (`FileService._createIgnoreFn`) -/

/-- The `ignore` field of a config as a string list (typed `string[]`). -/
def jstrList (xs : List JValue) : List String :=
  xs.map (fun v => match v with | .vStr s => s | _ => "")

/-- Source function `filesIgnoredFromConfig(config)`: the literal `ignore` list (when it is a
non-empty array), extended with the non-blank lines of the `ignoreFile`; the
file is read through the cache and a missing file is a thrown error. -/
def filesIgnoredFromConfig (ext : Extern) (config : ConfigObj) :
    Except String (List String) :=
  let ignore : List String :=
    match lookupKey config "ignore" with
    | some (.vArr xs) => if xs.length ≠ 0 then jstrList xs else []
    | _ => []
  match lookupKey config "ignoreFile" with
  | some (.vStr ignoreFile) =>
    if ignoreFile = "" then .ok ignore
    else
      match ext.readFile ignoreFile with
      | some content =>
        .ok (ignore ++ (splitLines content).filter (fun line => trimStr line != ""))
      | none =>
        .error ("File " ++ ignoreFile ++ " not found. Check your config of \"ignoreFile\".")
  | _ => .ok ignore

/-- The relative path computed inside the predicate returned by
`_createIgnoreFn`: relative to the local base directory when the normalized
candidate starts with it, relative to the remote path otherwise. -/
def relPathFor (baseDir remotePath fsPath : String) : String :=
  if strStartsWith (pathNormalize fsPath) baseDir then pathRelative baseDir fsPath
  else pathRelative remotePath fsPath

/-- The predicate returned by `_createIgnoreFn`: never ignore the root itself
(empty relative path); otherwise ask the compiled rule set. -/
def ignoreFnCore (ignores : String → Bool) (baseDir remotePath : String) :
    String → Bool :=
  fun fsPath =>
    (relPathFor baseDir remotePath fsPath != "") &&
      ignores (relPathFor baseDir remotePath fsPath)

/-- Source method `_createIgnoreFn` given the already-combined pattern list: `null` when
the list is empty, the compiled predicate otherwise. -/
def createIgnoreFn (ignoreFrom : List String → String → Bool)
    (baseDir remotePath : String) (ignoreConfig : List String) :
    Option (String → Bool) :=
  if ignoreConfig.length ≤ 0 then none
  else some (ignoreFnCore (ignoreFrom ignoreConfig) baseDir remotePath)

/-- The `remotePath` field as a string (typed `string`, normalized earlier). -/
def remotePathOf (c : ConfigObj) : String :=
  match lookupKey c "remotePath" with
  | some (.vStr s) => s
  | _ => ""

/-- Source method `FileService._createIgnoreFn(config)` in full: combine the patterns (may
throw on a missing ignore file), then compile. -/
def createIgnoreFnFS (ext : Extern) (baseDir : String) (config : ConfigObj) :
    Except String (Option (String → Bool)) :=
  match filesIgnoredFromConfig ext config with
  | .error e => .error e
  | .ok ignoreConfig =>
    .ok (createIgnoreFn ext.ignoreFrom baseDir (remotePathOf config) ignoreConfig)

/-! ### `FileService.getConfig` and `_resolveServiceConfig` -/

/-- The resolved `ServiceConfig`: the mutated config object plus the compiled
ignore predicate stored on it. -/
structure ServiceConfigModel where
  fields : ConfigObj
  ignore : Option (String → Bool)

/-- Statement `if (serviceConfig.port === undefined) serviceConfig.port =
chooseDefaultPort(serviceConfig.protocol)` of `_resolveServiceConfig`. -/
def defaultPortStep (cfg : ConfigObj) : ConfigObj :=
  match lookupKey cfg "port" with
  | none => setKey cfg "port" (.vNum (chooseDefaultPort (lookupKey cfg "protocol")))
  | some _ => cfg

/-- Statement `if (serviceConfig.protocol === 'ftp') serviceConfig.concurrency = 1`
of `_resolveServiceConfig`. -/
def ftpConcurrencyStep (cfg : ConfigObj) : ConfigObj :=
  match lookupKey cfg "protocol" with
  | some (.vStr "ftp") => setKey cfg "concurrency" (.vNum 1)
  | _ => cfg

/-- Source method `FileService._resolveServiceConfig(fileServiceConfig)`: default the port
by protocol when unset, force `concurrency` to 1 for FTP, then attach the
ignore predicate (computed from the same, already-updated object). -/
def resolveServiceConfig (ext : Extern) (baseDir : String) (cfg : ConfigObj) :
    Except String ServiceConfigModel :=
  let c2 := ftpConcurrencyStep (defaultPortStep cfg)
  match createIgnoreFnFS ext baseDir c2 with
  | .error e => .error e
  | .ok ign => .ok { fields := c2, ignore := ign }

/-- The `FileService` state that `getConfig` consults. -/
structure FileServiceModel where
  baseDir : String
  workspace : String
  config : ConfigObj
  /-- Field `_configValidator` as installed by `setConfigValidator` (`none` when
  never installed).  Its result is a JavaScript value whose falsiness the
  call site tests, hence `Option`. -/
  configValidator : Option (ConfigObj → Option ValidationResult)

/-- The error thrown for an unknown profile name. -/
def unknownProfileMsg (p : String) : String :=
  "Unknown Profile \"" ++ p ++ "\". Please check your profile setting."

/-- The profile-selection step at the top of `getConfig`: when the config has
a non-empty `profiles` object and a (truthy) profile is requested, look the
profile up — a missing (falsy) entry is a thrown error — and merge it over
the base config. -/
def selectProfile (config : ConfigObj) (useProfile : Option String) :
    Except String ConfigObj :=
  let hasProfiles : Bool :=
    match lookupKey config "profiles" with
    | some (.vObj profs) => decide (0 < profs.length)
    | _ => false
  match useProfile with
  | some p =>
    if hasProfiles && (p != "") then
      match lookupKey config "profiles" with
      | some (.vObj profs) =>
        match lookupKey profs p with
        | some (.vObj profObj) => .ok (mergeProfile config profObj)
        | some _ => .error (unknownProfileMsg p)
        | none => .error (unknownProfileMsg p)
      | _ => .ok config
    else .ok config
  | none => .ok config

/-- Source method `FileService.getConfig(useProfile)`: select the profile, complete the
config, run the installed validator — the source throws when the validator's
result is *falsy* (`if (!error) throw`) — and resolve the service config.
The surrounding `try/catch` logs and rethrows, so errors surface unchanged. -/
def getConfig (ext : Extern) (fs : FileServiceModel) (useProfile : Option String) :
    Except String ServiceConfigModel :=
  match selectProfile fs.config useProfile with
  | .error e => .error e
  | .ok config =>
    match getCompleteConfig ext config fs.workspace with
    | .error e => .error e
    | .ok completeConfig =>
      match fs.configValidator with
      | some validator =>
        match validator completeConfig with
        | none => .error "Config validation failed: undefined."
        | some _ => resolveServiceConfig ext fs.baseDir completeConfig
      | none => resolveServiceConfig ext fs.baseDir completeConfig

/-- Constructor test for a resolution outcome. -/
def isOkE (r : Except String ServiceConfigModel) : Bool :=
  match r with
  | .ok _ => true
  | .error _ => false

/-- Field of a successfully resolved service config (`none` on failure). -/
def resolvedFieldOf (r : Except String ServiceConfigModel) (k : String) :
    Option JValue :=
  match r with
  | .ok sc => lookupKey sc.fields k
  | .error _ => none

/-! ### Transfer scheduling (`createTransferScheduler`, `cancelTransferTasks`)

The `Scheduler` and `TransferTask` classes live in modules that are not part
of the excerpted source; their effects are modelled from the spec:
`scheduler.empty()` "discards all currently queued (not yet started) tasks"
and `task.cancel()` cooperatively cancels the task.  Scheduler handles and
tasks are identified by numeric ids. -/

/-- The own property names of the `transferScheduler` object literal built by
`createTransferScheduler` (source lines 597–620).  Inside its `run()` method
`this` is this object, and the `FileService` class itself has its
`_removeScheduler` method commented out (source lines 703–708), so neither
object carries a `_removeScheduler` member. -/
def transferSchedulerHandleKeys : List String := ["size", "stop", "add", "run"]

/-- How a call to the handle's `run()` ends. -/
inductive RunOutcome where
  /-- The returned promise resolves. -/
  | resolved
  /-- The returned promise never settles. -/
  | neverResolves
  /-- Call `run()` throws synchronously. -/
  | thrown (msg : String)
  deriving Repr, DecidableEq

/-- Source method `transferScheduler.run()`: with an empty queue it calls
`this._removeScheduler(transferScheduler)` and would resolve immediately;
otherwise it subscribes an `onIdle` callback that calls the same method and
then resolves, and starts the scheduler.  The method lookup is performed on
`this` (the handle object literal). -/
def transferSchedulerRun (queueSize : Nat) : RunOutcome :=
  if queueSize ≤ 0 then
    if transferSchedulerHandleKeys.contains "_removeScheduler" then .resolved
    else .thrown "TypeError: this._removeScheduler is not a function"
  else
    if transferSchedulerHandleKeys.contains "_removeScheduler" then .resolved
    else .neverResolves

/-- The cancellation-relevant state of a `FileService`: the active scheduler
handles (`_transferSchedulers`, by id), the queues of the underlying
scheduler objects (which outlive the handle list), the pending-task set
(`_pendingTransferTasks`, by id), and an effect log of every task on which
`cancel()` has been invoked. -/
structure FileServiceTransferState where
  transferSchedulers : List Nat
  schedulerQueues : List (Nat × List Nat)
  pendingTransferTasks : List Nat
  cancelledTasks : List Nat
  deriving Repr, DecidableEq

/-- Source call `transfer.stop()` for scheduler `i`: `scheduler.empty()` discards its
queued tasks (modelled from the spec). -/
def stopScheduler (queues : List (Nat × List Nat)) (i : Nat) :
    List (Nat × List Nat) :=
  queues.map (fun q => if q.1 = i then (q.1, ([] : List Nat)) else q)

/-- Queue of scheduler `i`. -/
def lookupQueue : List (Nat × List Nat) → Nat → Option (List Nat)
  | [], _ => none
  | (j, q) :: rest, i => if j = i then some q else lookupQueue rest i

/-- Source method `FileService.cancelTransferTasks()`: stop every active scheduler, clear
the scheduler list, invoke `cancel()` on every pending task, clear the
pending set. -/
def cancelTransferTasks (s : FileServiceTransferState) : FileServiceTransferState :=
  { transferSchedulers := []
    schedulerQueues := s.transferSchedulers.foldl stopScheduler s.schedulerQueues
    pendingTransferTasks := []
    cancelledTasks := s.cancelledTasks ++ s.pendingTransferTasks }

/-! ### Characterization helpers used by the theorems below -/

/-- Value the remote-refer merge would contribute for target key `k`: the
first entry whose (renamed) key is `k`, skipping `rootPath` entries. -/
def firstRemoteFor : List (String × JValue) → String → Option JValue
  | [], _ => none
  | (k0, v) :: rest, k =>
    if k0 = "rootPath" then firstRemoteFor rest k
    else if remoteTargetKey k0 = k then some v
    else firstRemoteFor rest k

/-- The `parseInt` adjustment `setConfigValue` applies to `port` values. -/
def portAdjusted (k : String) (v : JValue) : JValue :=
  if k = "port" then parseIntTen v else v

/-- The value `mergeProfile` leaves under `ignore` after processing a source
`ignore` entry of value `v` against a target whose `ignore` is the first
argument: arrays concatenate, a source array otherwise replaces, anything
else becomes the empty array. -/
def mergeIgnoreValue : Option JValue → JValue → JValue
  | some (.vArr a), .vArr b => .vArr (a ++ b)
  | _, .vArr b => .vArr b
  | _, _ => .vArr []

/-! ### Concrete fixtures used by witnesses and counterexamples -/

/-- Baseline external world: no remotes, no files, no environment, a
membership-based glob matcher. -/
def extBase : Extern where
  remoteMap := fun _ => none
  readFile := fun _ => none
  sshSectionFor := fun _ _ => none
  env := fun _ => none
  homeDir := "/home/u"
  ignoreFrom := fun pats p => pats.contains p

/-- A membership-based stand-in for a compiled glob rule set. -/
def containsMatcher : List String → String → Bool := fun pats p => pats.contains p

/-- External remote definition used by the C9 witness. -/
def rem9 : List (String × JValue) :=
  [("scheme", .vStr "sftp"), ("rootPath", .vStr "/x"),
   ("host", .vStr "h1"), ("port", .vStr "2222")]

/-- Config referencing the external remote `r1`, with `host` already set. -/
def conf9 : ConfigObj := [("remote", .vStr "r1"), ("host", .vStr "h0")]

/-- External world that knows the remote definition `r1`. -/
def ext9 : Extern := { extBase with remoteMap := fun n => if n = "r1" then some rem9 else none }

/-- A Joi verdict that rejects every configuration. -/
def joiRejectAll : ConfigObj → Option JoiError :=
  fun _ => some { message := "\"host\" is required" }

/-- FileService whose installed validator is `validateConfig` over a schema
that rejects everything. -/
def fs1 : FileServiceModel where
  baseDir := "/b"
  workspace := "/w"
  config := [("remotePath", .vStr "/r"), ("protocol", .vStr "local")]
  configValidator := some (validateConfig joiRejectAll)

/-- Same service with a validator that signals success by returning
`undefined` (the convention of the old Joi API the spec recommends). -/
def fs1b : FileServiceModel := { fs1 with configValidator := some (fun _ => none) }

/-- FTP config with an explicit concurrency of 8 (C6 witness). -/
def fs6 : FileServiceModel where
  baseDir := "/b"
  workspace := "/w"
  config := [("protocol", .vStr "ftp"), ("host", .vStr "h"), ("username", .vStr "u"),
             ("remotePath", .vStr "/r"), ("concurrency", .vNum 8)]
  configValidator := none

/-- Config declaring no `profiles` mapping at all (C8 counterexample). -/
def fs8c : FileServiceModel where
  baseDir := "/b"
  workspace := "/w"
  config := [("host", .vStr "h"), ("username", .vStr "u"),
             ("remotePath", .vStr "/r"), ("protocol", .vStr "local")]
  configValidator := none

/-- Config declaring one profile, `prod` (C8 witness requests `dev`). -/
def fs8w : FileServiceModel where
  baseDir := "/b"
  workspace := "/w"
  config := [("host", .vStr "h"), ("username", .vStr "u"),
             ("remotePath", .vStr "/r"), ("protocol", .vStr "local"),
             ("profiles", .vObj [("prod", .vObj [("host", .vStr "p.example.com")])])]
  configValidator := none

/-- Cancellation state with one active scheduler (id 1, two queued tasks),
one inactive scheduler object (id 2) and one pending task (id 7). -/
def st3 : FileServiceTransferState where
  transferSchedulers := [1]
  schedulerQueues := [(1, [5, 6]), (2, [9])]
  pendingTransferTasks := [7]
  cancelledTasks := []

/-! ### Association-list lemmas -/

theorem lookup_setKey_self (c : ConfigObj) (k : String) (v : JValue) :
    lookupKey (setKey c k v) k = some v := by
  induction c with
  | nil => simp [setKey, lookupKey]
  | cons hd tl ih =>
    obtain ⟨k0, w⟩ := hd
    by_cases h : k0 = k <;> simp [setKey, h, lookupKey, ih]

theorem lookup_setKey_ne (c : ConfigObj) (k k' : String) (v : JValue)
    (h : k' ≠ k) : lookupKey (setKey c k v) k' = lookupKey c k' := by
  induction c with
  | nil => simp [setKey, lookupKey, Ne.symm h]
  | cons hd tl ih =>
    obtain ⟨k0, w⟩ := hd
    by_cases h0 : k0 = k
    · subst h0
      simp [setKey, lookupKey, Ne.symm h]
    · by_cases h1 : k0 = k' <;> simp [setKey, lookupKey, h0, h1, ih, h]

theorem lookup_eraseKey_ne (c : ConfigObj) (k k' : String) (h : k' ≠ k) :
    lookupKey (eraseKey c k) k' = lookupKey c k' := by
  induction c with
  | nil => simp [eraseKey]
  | cons hd tl ih =>
    obtain ⟨k0, w⟩ := hd
    by_cases h0 : k0 = k
    · subst h0
      simp [eraseKey, lookupKey, Ne.symm h, ih]
    · by_cases h1 : k0 = k' <;> simp [eraseKey, lookupKey, h0, h1, ih, h]

theorem lookup_setConfigValue_ne (c : ConfigObj) (key : String) (v : JValue)
    (k : String) (h : k ≠ key) :
    lookupKey (setConfigValue c key v) k = lookupKey c k := by
  unfold setConfigValue
  cases lookupKey c key with
  | some w => rfl
  | none =>
    by_cases hp : key = "port"
    · subst hp
      rw [if_pos rfl]
      exact lookup_setKey_ne c "port" k (parseIntTen v) h
    · rw [if_neg hp]
      exact lookup_setKey_ne c key k v h

theorem lookup_setConfigValue_defined (c : ConfigObj) (key : String) (v : JValue)
    (k : String) (w : JValue) (h : lookupKey c k = some w) :
    lookupKey (setConfigValue c key v) k = some w := by
  by_cases hk : k = key
  · subst hk
    unfold setConfigValue
    rw [h]
    exact h
  · rw [lookup_setConfigValue_ne _ _ _ _ hk, h]

/-! ### Remote-refer merge lemmas -/

theorem lookup_applyRemoteEntries_defined (rem : List (String × JValue))
    (c : ConfigObj) (k : String) (w : JValue) (h : lookupKey c k = some w) :
    lookupKey (applyRemoteEntries c rem) k = some w := by
  induction rem generalizing c with
  | nil => simpa [applyRemoteEntries] using h
  | cons e rest ih =>
    obtain ⟨k0, v⟩ := e
    by_cases h0 : k0 = "rootPath"
    · simpa [applyRemoteEntries, h0] using ih c h
    · simpa [applyRemoteEntries, h0] using
        ih _ (lookup_setConfigValue_defined c (remoteTargetKey k0) v k w h)

theorem lookup_applyRemoteEntries_undef (rem : List (String × JValue))
    (c : ConfigObj) (k : String) (h : lookupKey c k = none) :
    lookupKey (applyRemoteEntries c rem) k =
      (firstRemoteFor rem k).map (portAdjusted k) := by
  induction rem generalizing c with
  | nil => simpa [applyRemoteEntries, firstRemoteFor] using h
  | cons e rest ih =>
    obtain ⟨k0, v⟩ := e
    by_cases h0 : k0 = "rootPath"
    · simpa [applyRemoteEntries, h0, firstRemoteFor] using ih c h
    · by_cases ht : remoteTargetKey k0 = k
      · have hset : setConfigValue c (remoteTargetKey k0) v =
            setKey c k (portAdjusted k v) := by
          rw [ht]
          unfold setConfigValue portAdjusted
          rw [h]
          by_cases hp : k = "port" <;> simp [hp]
        have hdef : lookupKey (setConfigValue c (remoteTargetKey k0) v) k =
            some (portAdjusted k v) := by
          rw [hset, lookup_setKey_self]
        have hstep : applyRemoteEntries c ((k0, v) :: rest) =
            applyRemoteEntries (setConfigValue c (remoteTargetKey k0) v) rest := by
          simp [applyRemoteEntries, h0]
        rw [hstep, lookup_applyRemoteEntries_defined rest _ k _ hdef]
        simp [firstRemoteFor, h0, ht]
      · have hnone : lookupKey (setConfigValue c (remoteTargetKey k0) v) k = none := by
          rw [lookup_setConfigValue_ne _ _ _ _ (fun hh => ht hh.symm), h]
        simpa [applyRemoteEntries, h0, firstRemoteFor, ht] using ih _ hnone

/-! ### Ssh-merge lemmas -/

theorem sshKeyMapping_cases (p k : String) (h : sshKeyMapping p = some k) :
    k = "host" ∨ k = "port" ∨ k = "username" ∨ k = "privateKeyPath" ∨
      k = "keepalive" ∨ k = "connTimeout" := by
  unfold sshKeyMapping at h
  split_ifs at h <;> simp_all

theorem lookup_applySshLines_protocol (lines : List (String × String))
    (c : ConfigObj) :
    lookupKey (applySshLines c lines) "protocol" = lookupKey c "protocol" := by
  induction lines generalizing c with
  | nil => rfl
  | cons e rest ih =>
    obtain ⟨param, value⟩ := e
    by_cases hp : param = ""
    · simp [applySshLines, hp, ih]
    · cases hm : sshKeyMapping (toLowerStr param) with
      | none => simp [applySshLines, hp, hm, ih]
      | some key =>
        rcases sshKeyMapping_cases _ _ hm with h | h | h | h | h | h <;> subst h <;>
          simp [applySshLines, hp, hm, ih, lookup_setKey_ne, lookup_setConfigValue_ne]

theorem mergeRemoteRefer_defined (ext : Extern) (c c' : ConfigObj)
    (hok : mergeRemoteRefer ext c = .ok c') (k : String) (w : JValue)
    (h : lookupKey c k = some w) : lookupKey c' k = some w := by
  unfold mergeRemoteRefer at hok
  cases hr : lookupKey c "remote" with
  | none =>
    rw [hr] at hok
    cases hok
    exact h
  | some rv =>
    rw [hr] at hok
    cases rv with
    | vStr name =>
      by_cases hn : name = ""
      · simp only [hn, if_pos rfl] at hok
        cases hok
        exact h
      · simp only [hn, if_neg hn, ite_false] at hok
        cases hmap : ext.remoteMap name with
        | none => rw [hmap] at hok; cases hok
        | some rem =>
          rw [hmap] at hok
          cases hok
          exact lookup_applyRemoteEntries_defined rem c k w h
    | vNull => cases hok; exact h
    | vBool b => cases hok; exact h
    | vNum n => cases hok; exact h
    | vArr xs => cases hok; exact h
    | vObj fields => cases hok; exact h

theorem mergeExternal_protocol (ext : Extern) (c c' : ConfigObj) (v : JValue)
    (hok : mergeConfigWithExternalRefer ext c = .ok c')
    (h : lookupKey c "protocol" = some v) : lookupKey c' "protocol" = some v := by
  unfold mergeConfigWithExternalRefer at hok
  cases hm : mergeRemoteRefer ext c with
  | error e => rw [hm] at hok; cases hok
  | ok mc =>
    rw [hm] at hok
    have hmc : lookupKey mc "protocol" = some v :=
      mergeRemoteRefer_defined ext c mc hm "protocol" v h
    rw [h] at hok
    cases v with
    | vStr s =>
      by_cases hs : s = "sftp"
      · subst hs
        simp only at hok
        cases hrf : ext.readFile (replaceHomePath ext.homeDir
            (match lookupKey c "sshConfigPath" with
             | some (.vStr sp) => if sp = "" then DEFAULT_SSHCONFIG_FILE else sp
             | _ => DEFAULT_SSHCONFIG_FILE)) with
        | none => rw [hrf] at hok; cases hok; exact hmc
        | some content =>
          simp only [hrf] at hok
          cases hsec : ext.sshSectionFor content (hostStrOf mc) with
          | none => simp only [hsec] at hok; cases hok; exact hmc
          | some lines =>
            simp only [hsec] at hok
            cases hok
            rw [lookup_applySshLines_protocol lines mc]
            exact hmc
      · have : (Except.ok mc : Except String ConfigObj) = .ok c' := by
          simpa [hs] using hok
        cases this
        exact hmc
    | vNull => cases hok; exact hmc
    | vBool b => cases hok; exact hmc
    | vNum n => cases hok; exact hmc
    | vArr xs => cases hok; exact hmc
    | vObj fields => cases hok; exact hmc

/-! ### Normalization-step lemmas -/

theorem normalizeRemotePathStep_pres (mc c1 : ConfigObj) (k : String)
    (hk : k ≠ "remotePath") (hok : normalizeRemotePathStep mc = .ok c1) :
    lookupKey c1 k = lookupKey mc k := by
  unfold normalizeRemotePathStep at hok
  cases hrp : lookupKey mc "remotePath" with
  | none => rw [hrp] at hok; cases hok
  | some rv =>
    rw [hrp] at hok
    cases rv with
    | vStr rp => cases hok; exact lookup_setKey_ne mc "remotePath" k _ hk
    | vNull => cases hok
    | vBool b => cases hok
    | vNum n => cases hok
    | vArr xs => cases hok
    | vObj fields => cases hok

theorem resolvePrivateKeyStep_pres (ws : String) (c : ConfigObj) (k : String)
    (hk : k ≠ "privateKeyPath") :
    lookupKey (resolvePrivateKeyStep ws c) k = lookupKey c k := by
  unfold resolvePrivateKeyStep
  cases lookupKey c "privateKeyPath" with
  | none => rfl
  | some pv =>
    cases pv with
    | vStr pk =>
      by_cases hpk : pk = ""
      · simp [hpk]
      · simp [hpk, lookup_setKey_ne c "privateKeyPath" k _ hk]
    | vNull => rfl
    | vBool b => rfl
    | vNum n => rfl
    | vArr xs => rfl
    | vObj fields => rfl

theorem resolveIgnoreFileStep_pres (ws : String) (c : ConfigObj) (k : String)
    (hk : k ≠ "ignoreFile") :
    lookupKey (resolveIgnoreFileStep ws c) k = lookupKey c k := by
  unfold resolveIgnoreFileStep
  cases lookupKey c "ignoreFile" with
  | none => rfl
  | some fv =>
    cases fv with
    | vStr f =>
      by_cases hf : f = ""
      · simp [hf]
      · simp [hf, lookup_setKey_ne c "ignoreFile" k _ hk]
    | vNull => rfl
    | vBool b => rfl
    | vNum n => rfl
    | vArr xs => rfl
    | vObj fields => rfl

theorem resolveAgentStep_pres (ext : Extern) (c c' : ConfigObj) (k : String)
    (hk : k ≠ "agent") (hok : resolveAgentStep ext c = .ok c') :
    lookupKey c' k = lookupKey c k := by
  unfold resolveAgentStep at hok
  cases hag : lookupKey c "agent" with
  | none => rw [hag] at hok; cases hok; rfl
  | some av =>
    cases av with
    | vStr agent =>
      simp only [hag] at hok
      by_cases hcond : ((agent != "") && strStartsWith agent "$") = true
      · rw [if_pos hcond] at hok
        cases henv : ext.env (dropFirstChar agent) with
        | none => rw [henv] at hok; cases hok
        | some v =>
          simp only [henv] at hok
          by_cases hv : v = ""
          · rw [if_pos hv] at hok; cases hok
          · rw [if_neg hv] at hok
            cases hok
            exact lookup_setKey_ne c "agent" k _ hk
      · rw [if_neg hcond] at hok; cases hok; rfl
    | vNull => rw [hag] at hok; cases hok; rfl
    | vBool b => rw [hag] at hok; cases hok; rfl
    | vNum n => rw [hag] at hok; cases hok; rfl
    | vArr xs => rw [hag] at hok; cases hok; rfl
    | vObj fields => rw [hag] at hok; cases hok; rfl

theorem getCompleteConfig_protocol (ext : Extern) (c : ConfigObj) (ws : String)
    (c' : ConfigObj) (v : JValue) (hok : getCompleteConfig ext c ws = .ok c')
    (h : lookupKey c "protocol" = some v) : lookupKey c' "protocol" = some v := by
  unfold getCompleteConfig at hok
  cases hm : mergeConfigWithExternalRefer ext c with
  | error e => rw [hm] at hok; cases hok
  | ok mc =>
    simp only [hm] at hok
    have hmc := mergeExternal_protocol ext c mc v hm h
    cases hn : normalizeRemotePathStep mc with
    | error e => rw [hn] at hok; cases hok
    | ok c1 =>
      simp only [hn] at hok
      have h1 : lookupKey c1 "protocol" = some v := by
        rw [normalizeRemotePathStep_pres mc c1 "protocol" (by decide) hn]
        exact hmc
      have h2 : lookupKey (resolveIgnoreFileStep ws (resolvePrivateKeyStep ws c1))
          "protocol" = some v := by
        rw [resolveIgnoreFileStep_pres ws _ "protocol" (by decide),
          resolvePrivateKeyStep_pres ws _ "protocol" (by decide)]
        exact h1
      rw [resolveAgentStep_pres ext _ c' "protocol" (by decide) hok]
      exact h2

/-! ### Service-config resolution lemmas -/

theorem defaultPortStep_protocol (cfg : ConfigObj) :
    lookupKey (defaultPortStep cfg) "protocol" = lookupKey cfg "protocol" := by
  unfold defaultPortStep
  cases lookupKey cfg "port" with
  | none => exact lookup_setKey_ne cfg "port" "protocol" _ (by decide)
  | some _ => rfl

theorem defaultPortStep_port (cfg : ConfigObj) :
    lookupKey (defaultPortStep cfg) "port" =
      some (match lookupKey cfg "port" with
            | some v => v
            | none => .vNum (chooseDefaultPort (lookupKey cfg "protocol"))) := by
  unfold defaultPortStep
  cases hp : lookupKey cfg "port" with
  | none => simp [lookup_setKey_self]
  | some v => simp [hp]

theorem ftpConcurrencyStep_ne (cfg : ConfigObj) (k : String)
    (hk : k ≠ "concurrency") :
    lookupKey (ftpConcurrencyStep cfg) k = lookupKey cfg k := by
  unfold ftpConcurrencyStep
  cases hprot : lookupKey cfg "protocol" with
  | none => rfl
  | some pv =>
    cases pv with
    | vStr s =>
      by_cases hs : s = "ftp"
      · subst hs
        exact lookup_setKey_ne cfg "concurrency" k _ hk
      · simp [hs]
    | vNull => rfl
    | vBool b => rfl
    | vNum n => rfl
    | vArr xs => rfl
    | vObj fields => rfl

theorem ftpConcurrencyStep_ftp (cfg : ConfigObj)
    (h : lookupKey cfg "protocol" = some (.vStr "ftp")) :
    lookupKey (ftpConcurrencyStep cfg) "concurrency" = some (.vNum 1) := by
  unfold ftpConcurrencyStep
  rw [h]
  exact lookup_setKey_self cfg "concurrency" _

theorem resolveServiceConfig_ftp (ext : Extern) (baseDir : String)
    (cfg : ConfigObj) (hp : lookupKey cfg "protocol" = some (.vStr "ftp"))
    (hok : isOkE (resolveServiceConfig ext baseDir cfg) = true) :
    resolvedFieldOf (resolveServiceConfig ext baseDir cfg) "concurrency" =
      some (.vNum 1) := by
  unfold resolveServiceConfig at hok ⊢
  cases hig : createIgnoreFnFS ext baseDir (ftpConcurrencyStep (defaultPortStep cfg)) with
  | error e =>
    simp only [hig] at hok
    simp [isOkE] at hok
  | ok ign =>
    simp only [hig]
    show lookupKey (ftpConcurrencyStep (defaultPortStep cfg)) "concurrency" = some (.vNum 1)
    exact ftpConcurrencyStep_ftp _ ((defaultPortStep_protocol cfg).trans hp)

/-- Reduction of `getConfig` when no profile is requested. -/
theorem getConfig_none_eq (ext : Extern) (fs : FileServiceModel) :
    getConfig ext fs none =
      (match getCompleteConfig ext fs.config fs.workspace with
       | .error e => .error e
       | .ok completeConfig =>
         match fs.configValidator with
         | some validator =>
           match validator completeConfig with
           | none => .error "Config validation failed: undefined."
           | some _ => resolveServiceConfig ext fs.baseDir completeConfig
         | none => resolveServiceConfig ext fs.baseDir completeConfig) := rfl

/-! ### Profile-merge lemmas -/

theorem mergeProfileStep_ignore (res : ConfigObj) (v : JValue) :
    mergeProfileStep res ("ignore", v) =
      setKey res "ignore" (mergeIgnoreValue (lookupKey res "ignore") v) := by
  unfold mergeProfileStep mergeIgnoreValue
  cases lookupKey res "ignore" with
  | none => cases v <;> rfl
  | some w => cases w <;> cases v <;> rfl

theorem mergeProfileStep_ne (res : ConfigObj) (kv : String × JValue) (k : String)
    (hkv : kv.1 ≠ k) :
    lookupKey (mergeProfileStep res kv) k = lookupKey res k := by
  obtain ⟨k0, w⟩ := kv
  by_cases h0 : k0 = "ignore"
  · subst h0
    rw [mergeProfileStep_ignore]
    exact lookup_setKey_ne res "ignore" k _ (Ne.symm hkv)
  · have : mergeProfileStep res (k0, w) = setKey res k0 w := by
      simp [mergeProfileStep, h0]
    rw [this]
    exact lookup_setKey_ne res k0 k w (Ne.symm hkv)

theorem mergeProfile_fold_notin (entries : List (String × JValue))
    (res : ConfigObj) (k : String) (h : k ∉ entries.map Prod.fst) :
    lookupKey (List.foldl mergeProfileStep res entries) k = lookupKey res k := by
  induction entries generalizing res with
  | nil => rfl
  | cons e rest ih =>
    simp only [List.map_cons, List.mem_cons, not_or] at h
    rw [List.foldl_cons, ih _ h.2, mergeProfileStep_ne res e k (fun hh => h.1 hh.symm)]

theorem mergeProfile_fold_ignore (entries : List (String × JValue))
    (res : ConfigObj) (v : JValue)
    (hnd : (entries.map Prod.fst).Nodup) (hm : ("ignore", v) ∈ entries) :
    lookupKey (List.foldl mergeProfileStep res entries) "ignore" =
      some (mergeIgnoreValue (lookupKey res "ignore") v) := by
  induction entries generalizing res with
  | nil => cases hm
  | cons e rest ih =>
    obtain ⟨k0, w⟩ := e
    simp only [List.map_cons, List.nodup_cons] at hnd
    obtain ⟨hnotin, hnd2⟩ := hnd
    rcases List.mem_cons.mp hm with heq | hmem
    · obtain ⟨hk, hv⟩ := Prod.mk.injEq "ignore" v k0 w ▸ heq
      subst hk
      subst hv
      rw [List.foldl_cons, mergeProfileStep_ignore,
        mergeProfile_fold_notin rest _ "ignore" hnotin, lookup_setKey_self]
    · have hk0 : k0 ≠ "ignore" := by
        intro hh
        subst hh
        exact hnotin (by simpa using List.mem_map_of_mem Prod.fst hmem)
      rw [List.foldl_cons, ih _ hnd2 hmem,
        mergeProfileStep_ne res (k0, w) "ignore" hk0]

/-! ### Scheduler-cancellation lemmas -/

theorem lookupQueue_stopScheduler (queues : List (Nat × List Nat)) (j i : Nat) :
    lookupQueue (stopScheduler queues j) i =
      if i = j then (lookupQueue queues i).map (fun _ => ([] : List Nat))
      else lookupQueue queues i := by
  induction queues with
  | nil => simp [stopScheduler, lookupQueue]
  | cons q rest ih =>
    obtain ⟨j0, ql⟩ := q
    by_cases h0 : j0 = j
    · have hstop : stopScheduler ((j0, ql) :: rest) j =
          (j0, ([] : List Nat)) :: stopScheduler rest j := by
        simp [stopScheduler, h0]
      rw [hstop]
      by_cases h1 : j0 = i
      · have hij : i = j := h1 ▸ h0
        have hL : lookupQueue ((j0, ([] : List Nat)) :: stopScheduler rest j) i =
            some [] := by simp [lookupQueue, h1]
        have hR : lookupQueue ((j0, ql) :: rest) i = some ql := by
          simp [lookupQueue, h1]
        rw [hL, if_pos hij, hR]
        rfl
      · have hij : ¬i = j := fun hh => h1 (h0.trans hh.symm)
        have hL : lookupQueue ((j0, ([] : List Nat)) :: stopScheduler rest j) i =
            lookupQueue (stopScheduler rest j) i := by simp [lookupQueue, h1]
        have hR : lookupQueue ((j0, ql) :: rest) i = lookupQueue rest i := by
          simp [lookupQueue, h1]
        rw [hL, ih, if_neg hij, if_neg hij, hR]
    · have hstop : stopScheduler ((j0, ql) :: rest) j =
          (j0, ql) :: stopScheduler rest j := by
        simp [stopScheduler, h0]
      rw [hstop]
      by_cases h1 : j0 = i
      · have hij : ¬i = j := fun hh => h0 (h1.trans hh)
        have hL : lookupQueue ((j0, ql) :: stopScheduler rest j) i = some ql := by
          simp [lookupQueue, h1]
        have hR : lookupQueue ((j0, ql) :: rest) i = some ql := by
          simp [lookupQueue, h1]
        rw [hL, if_neg hij, hR]
      · have hL : lookupQueue ((j0, ql) :: stopScheduler rest j) i =
            lookupQueue (stopScheduler rest j) i := by simp [lookupQueue, h1]
        have hR : lookupQueue ((j0, ql) :: rest) i = lookupQueue rest i := by
          simp [lookupQueue, h1]
        rw [hL, ih, hR]

theorem lookupQueue_foldl_stop (ids : List Nat) (queues : List (Nat × List Nat))
    (i : Nat) :
    lookupQueue (ids.foldl stopScheduler queues) i =
      if i ∈ ids then (lookupQueue queues i).map (fun _ => ([] : List Nat))
      else lookupQueue queues i := by
  induction ids generalizing queues with
  | nil => simp
  | cons j rest ih =>
    rw [List.foldl_cons, ih, lookupQueue_stopScheduler]
    by_cases hmem : i ∈ rest <;> by_cases hj : i = j <;>
      cases hq : lookupQueue queues i <;>
        simp [hmem, hj, hq, List.mem_cons]

/-! ### Claim theorems -/

/-- C1 (code bug): `getConfig` is specified to fail with a `ConfigError`
whenever the installed validator rejects the resolved configuration and to
return the resolved config when it accepts; the source instead tests
`if (!error) throw` on the validator's result, and the installed validator
`validateConfig` always returns a truthy object.  Evaluated at a
configuration the schema rejects: the validator reports the rejection yet
`getConfig` still succeeds, and a validator following the success-is-
`undefined` convention makes `getConfig` throw on a *valid* config. -/
theorem c1_getConfig_validator_inversion :
    validateConfig joiRejectAll fs1.config =
      some { message := "\"host\" is required" } ∧
    isOkE (getConfig extBase fs1 none) = true ∧
    getConfig extBase fs1b none = .error "Config validation failed: undefined." :=
  ⟨rfl, rfl, rfl⟩

/-- C2 (code bug): the spec says `run()` resolves (immediately when the
queue is empty, at idle otherwise) and that the scheduler is then removed
from the active list; but `FileService._removeScheduler` is commented out
and `this` inside `run()` is the handle object literal, so the call
`this._removeScheduler(transferScheduler)` hits a missing member: with an
empty queue `run()` throws a `TypeError` instead of resolving, and with a
non-empty queue the idle callback throws before `resolve()`, so the promise
never settles and the scheduler is never removed. -/
theorem c2_transferSchedulerRun_breaks :
    transferSchedulerRun 0 =
      .thrown "TypeError: this._removeScheduler is not a function" ∧
    transferSchedulerRun 1 = .neverResolves :=
  ⟨rfl, rfl⟩

/-- C3: after `cancelTransferTasks()` every scheduler that was active has had
its queue emptied via `stop()`, every task that was pending has had
`cancel()` invoked on it, both tracking collections are empty, and an
immediate second call (also from a state with zero pending work) changes
nothing and cancels nothing. -/
theorem c3_cancelTransferTasks_spec (s : FileServiceTransferState) :
    (∀ i, i ∈ s.transferSchedulers →
       lookupQueue (cancelTransferTasks s).schedulerQueues i =
         (lookupQueue s.schedulerQueues i).map (fun _ => ([] : List Nat))) ∧
    (∀ t, t ∈ s.pendingTransferTasks → t ∈ (cancelTransferTasks s).cancelledTasks) ∧
    (cancelTransferTasks s).transferSchedulers = [] ∧
    (cancelTransferTasks s).pendingTransferTasks = [] ∧
    cancelTransferTasks (cancelTransferTasks s) = cancelTransferTasks s := by
  refine ⟨?_, ?_, rfl, rfl, ?_⟩
  · intro i hi
    show lookupQueue (s.transferSchedulers.foldl stopScheduler s.schedulerQueues) i = _
    rw [lookupQueue_foldl_stop, if_pos hi]
  · intro t ht
    show t ∈ s.cancelledTasks ++ s.pendingTransferTasks
    exact List.mem_append_right _ ht
  · simp [cancelTransferTasks]

/-- Witness for C3 at a concrete state: scheduler 1 was active and ends with
an empty queue, pending task 7 gets cancelled, both tracking collections end
empty, and a second call is a no-op. -/
theorem c3_cancelTransferTasks_witness :
    lookupQueue (cancelTransferTasks st3).schedulerQueues 1 =
      (lookupQueue st3.schedulerQueues 1).map (fun _ => ([] : List Nat)) ∧
    7 ∈ (cancelTransferTasks st3).cancelledTasks ∧
    (cancelTransferTasks st3).transferSchedulers = [] ∧
    (cancelTransferTasks st3).pendingTransferTasks = [] ∧
    cancelTransferTasks (cancelTransferTasks st3) = cancelTransferTasks st3 := by
  obtain ⟨h1, h2, h3, h4, h5⟩ := c3_cancelTransferTasks_spec st3
  exact ⟨h1 1 (by decide), h2 7 (by decide), h3, h4, h5⟩

/-- C4: for a non-empty compiled pattern set the resolved ignore predicate
exists, computes the candidate's relative path against the local base
directory when the normalized path starts with it and against the remote
path otherwise, returns `false` whenever that relative path is empty (the
root itself), and returns `true` exactly when the non-empty relative path
matches the compiled rule set. -/
theorem c4_ignoreFn_spec (ignoreFrom : List String → String → Bool)
    (baseDir remotePath : String) (patterns : List String) (fsPath : String)
    (hp : 0 < patterns.length) :
    createIgnoreFn ignoreFrom baseDir remotePath patterns =
      some (ignoreFnCore (ignoreFrom patterns) baseDir remotePath) ∧
    relPathFor baseDir remotePath fsPath =
      (if strStartsWith (pathNormalize fsPath) baseDir then pathRelative baseDir fsPath
       else pathRelative remotePath fsPath) ∧
    (relPathFor baseDir remotePath fsPath = "" →
       ignoreFnCore (ignoreFrom patterns) baseDir remotePath fsPath = false) ∧
    (ignoreFnCore (ignoreFrom patterns) baseDir remotePath fsPath = true ↔
       relPathFor baseDir remotePath fsPath ≠ "" ∧
         ignoreFrom patterns (relPathFor baseDir remotePath fsPath) = true) := by
  refine ⟨?_, rfl, ?_, ?_⟩
  · unfold createIgnoreFn
    rw [if_neg (by omega)]
  · intro h
    unfold ignoreFnCore
    rw [h]
    simp
  · unfold ignoreFnCore
    rw [Bool.and_eq_true]
    simp [bne_iff_ne]

/-- Witness for C4: with the single pattern `node_modules`, the predicate
exists, ignores `/base/node_modules` (relative path `node_modules` matches),
never ignores the root `/base` itself, and leaves `/base/src` alone. -/
theorem c4_ignoreFn_witness :
    createIgnoreFn containsMatcher "/base" "/remote" ["node_modules"] =
      some (ignoreFnCore (containsMatcher ["node_modules"]) "/base" "/remote") ∧
    ignoreFnCore (containsMatcher ["node_modules"]) "/base" "/remote"
      "/base/node_modules" = true ∧
    ignoreFnCore (containsMatcher ["node_modules"]) "/base" "/remote"
      "/base" = false ∧
    ignoreFnCore (containsMatcher ["node_modules"]) "/base" "/remote"
      "/base/src" = false := by
  obtain ⟨h1, _, _, h4⟩ := c4_ignoreFn_spec containsMatcher "/base" "/remote"
    ["node_modules"] "/base/node_modules" (by decide)
  obtain ⟨_, _, h3, _⟩ := c4_ignoreFn_spec containsMatcher "/base" "/remote"
    ["node_modules"] "/base" (by decide)
  exact ⟨h1, h4.mpr ⟨by decide, by decide⟩, h3 (by decide), by decide⟩

/-- C5 counterexample: the claim says that when either `ignore` value is not
an array, "the profile's value replaces the base's"; but when the profile's
own `ignore` is not an array the code installs the *empty array*, not the
profile's value: merging `ignore: "a"` with profile `ignore: "b"` yields
`[]`, not `"b"`. -/
theorem c5_mergeProfile_nonarray_counterexample :
    lookupKey (mergeProfile [("ignore", .vStr "a")] [("ignore", .vStr "b")])
      "ignore" = some (.vArr []) ∧
    some (JValue.vArr []) ≠ some (JValue.vStr "b") :=
  ⟨rfl, by simp⟩

/-- C5 (amended): when a profile declares `ignore`, the merged `ignore` is:
the concatenation base-then-profile (order and duplicates preserved) when
both are arrays; the profile's array when only the profile's value is an
array; and the empty array when the profile's value is not an array. -/
theorem c5_mergeProfile_ignore_amended (t s : ConfigObj) (v : JValue)
    (hnd : (s.map Prod.fst).Nodup) (hm : ("ignore", v) ∈ s) :
    lookupKey (mergeProfile t s) "ignore" =
      some (mergeIgnoreValue (lookupKey t "ignore") v) := by
  unfold mergeProfile
  rw [mergeProfile_fold_ignore s _ v hnd hm,
    lookup_eraseKey_ne t "profiles" "ignore" (by decide)]

/-- Witness for C5: base `ignore: ["a"]` merged with profile
`ignore: ["b", "a"]` gives the concatenation `["a", "b", "a"]`, preserving
order and the duplicate. -/
theorem c5_mergeProfile_ignore_witness :
    lookupKey (mergeProfile
        [("ignore", .vArr [.vStr "a"]), ("host", .vStr "h")]
        [("username", .vStr "u"), ("ignore", .vArr [.vStr "b", .vStr "a"])])
      "ignore" = some (.vArr [.vStr "a", .vStr "b", .vStr "a"]) :=
  (c5_mergeProfile_ignore_amended
      [("ignore", .vArr [.vStr "a"]), ("host", .vStr "h")]
      [("username", .vStr "u"), ("ignore", .vArr [.vStr "b", .vStr "a"])]
      (.vArr [.vStr "b", .vStr "a"])
      (by decide)
      (List.Mem.tail _ (List.Mem.head _))).trans rfl

/-- C6: resolving a configuration whose protocol is `ftp` (with no active
profile overlay) always yields `concurrency = 1`, whatever concurrency was
configured. -/
theorem c6_getConfig_ftp_forces_serial (ext : Extern) (fs : FileServiceModel)
    (h1 : lookupKey fs.config "protocol" = some (.vStr "ftp"))
    (h2 : isOkE (getConfig ext fs none) = true) :
    resolvedFieldOf (getConfig ext fs none) "concurrency" = some (.vNum 1) := by
  rw [getConfig_none_eq] at h2 ⊢
  cases hcc : getCompleteConfig ext fs.config fs.workspace with
  | error e => rw [hcc] at h2; simp [isOkE] at h2
  | ok cc =>
    simp only [hcc] at h2 ⊢
    have hccp := getCompleteConfig_protocol ext fs.config fs.workspace cc _ hcc h1
    cases hv : fs.configValidator with
    | none =>
      simp only [hv] at h2 ⊢
      exact resolveServiceConfig_ftp ext fs.baseDir cc hccp h2
    | some validator =>
      simp only [hv] at h2 ⊢
      cases hvr : validator cc with
      | none => simp only [hvr] at h2; simp [isOkE] at h2
      | some r =>
        simp only [hvr] at h2 ⊢
        exact resolveServiceConfig_ftp ext fs.baseDir cc hccp h2

/-- Witness for C6: an FTP config with configured concurrency 8 resolves to
concurrency 1. -/
theorem c6_getConfig_ftp_witness :
    resolvedFieldOf (getConfig extBase fs6 none) "concurrency" =
      some (.vNum 1) :=
  c6_getConfig_ftp_forces_serial extBase fs6 rfl rfl

/-- Normative content of `chooseDefaultPort` stated as an explicit case
split: 21 for `ftp`, 22 for everything else (including a missing protocol). -/
theorem chooseDefaultPort_spec (p : Option JValue) :
    chooseDefaultPort p =
      (match p with | some (.vStr "ftp") => 21 | _ => 22) := rfl

/-- C7: whenever `_resolveServiceConfig` succeeds, the resolved `port` is the
explicitly configured one when present, and otherwise 21 for protocol `ftp`
and 22 for any other protocol. -/
theorem c7_resolveServiceConfig_default_port (ext : Extern) (baseDir : String)
    (cfg : ConfigObj) :
    resolvedFieldOf (resolveServiceConfig ext baseDir cfg) "port" =
      if isOkE (resolveServiceConfig ext baseDir cfg) then
        some (match lookupKey cfg "port" with
              | some v => v
              | none =>
                .vNum (match lookupKey cfg "protocol" with
                       | some (.vStr "ftp") => 21
                       | _ => 22))
      else none := by
  unfold resolveServiceConfig
  cases hig : createIgnoreFnFS ext baseDir (ftpConcurrencyStep (defaultPortStep cfg)) with
  | error e =>
    simp only [hig]
    rfl
  | ok ign =>
    simp only [hig]
    show lookupKey (ftpConcurrencyStep (defaultPortStep cfg)) "port" =
      some (match lookupKey cfg "port" with
            | some v => v
            | none =>
              .vNum (match lookupKey cfg "protocol" with
                     | some (.vStr "ftp") => 21
                     | _ => 22))
    rw [ftpConcurrencyStep_ne _ "port" (by decide), defaultPortStep_port,
      ← chooseDefaultPort_spec]

/-- C8 counterexample: the claim says `getConfig` fails for an unknown
profile name "including when the configuration declares no profiles mapping
at all"; but with no `profiles` key the source skips the check entirely
(`hasProfiles` is false), so requesting the non-existent profile `prod`
succeeds rather than failing. -/
theorem c8_no_profiles_counterexample :
    lookupKey fs8c.config "profiles" = none ∧
    isOkE (getConfig extBase fs8c (some "prod")) = true :=
  ⟨rfl, rfl⟩

/-- C8 (amended): `getConfig(profile)` fails with the unknown-profile error
exactly in the checked situation: the configuration declares a non-empty
`profiles` mapping, a non-empty profile name is requested, and that name is
not among the declared profiles.  When no profiles mapping is declared the
requested name is ignored and resolution proceeds on the base config. -/
theorem c8_getConfig_unknown_profile (ext : Extern) (fs : FileServiceModel)
    (p : String) (profs : List (String × JValue))
    (hprofs : lookupKey fs.config "profiles" = some (.vObj profs))
    (hne : 0 < profs.length) (hp : p ≠ "")
    (hmiss : lookupKey profs p = none) :
    getConfig ext fs (some p) = .error (unknownProfileMsg p) := by
  have hsel : selectProfile fs.config (some p) = .error (unknownProfileMsg p) := by
    unfold selectProfile
    simp only [hprofs, hmiss]
    rw [if_pos]
    rw [Bool.and_eq_true]
    exact ⟨decide_eq_true_eq.mpr hne, bne_iff_ne.mpr hp⟩
  unfold getConfig
  rw [hsel]

/-- Witness for C8: a config declaring only the profile `prod` rejects a
request for the profile `dev` with the unknown-profile error. -/
theorem c8_getConfig_unknown_profile_witness :
    getConfig extBase fs8w (some "dev") = .error (unknownProfileMsg "dev") :=
  c8_getConfig_unknown_profile extBase fs8w "dev"
    [("prod", .vObj [("host", .vStr "p.example.com")])]
    rfl (by decide) (by decide) rfl

/-- C9: when a configuration references an external remote definition, the
merge fails with the cannot-find error if the definition is absent, and
otherwise applies the definition's entries with `scheme` renamed to
`protocol`, `rootPath` dropped, and every field set only if not already
defined: fields already present keep their values, and an absent field
receives the first applicable remote entry (port values going through
`parseInt`). -/
theorem c9_mergeRemoteRefer_spec (ext : Extern) (conf : ConfigObj)
    (name : String) (h1 : lookupKey conf "remote" = some (.vStr name))
    (h2 : name ≠ "") :
    (ext.remoteMap name = none →
       mergeRemoteRefer ext conf =
         .error ("Cannot find remote configuration for \"" ++ name ++ "\".")) ∧
    (∀ rem, ext.remoteMap name = some rem →
       mergeRemoteRefer ext conf = .ok (applyRemoteEntries conf rem)) ∧
    (∀ rem k w, lookupKey conf k = some w →
       lookupKey (applyRemoteEntries conf rem) k = some w) ∧
    (∀ rem k, lookupKey conf k = none →
       lookupKey (applyRemoteEntries conf rem) k =
         (firstRemoteFor rem k).map (portAdjusted k)) := by
  refine ⟨?_, ?_, ?_, ?_⟩
  · intro hmap
    unfold mergeRemoteRefer
    simp only [h1]
    rw [if_neg h2, hmap]
  · intro rem hmap
    unfold mergeRemoteRefer
    simp only [h1]
    rw [if_neg h2, hmap]
  · intro rem k w h
    exact lookup_applyRemoteEntries_defined rem conf k w h
  · intro rem k h
    exact lookup_applyRemoteEntries_undef rem conf k h

/-- Witness for C9 at a concrete remote definition: fetching succeeds, the
already-defined `host` is not overwritten, `scheme` lands under `protocol`,
`rootPath` is dropped, the string port is parsed to the number 2222, and a
world without the definition yields the cannot-find error. -/
theorem c9_mergeRemoteRefer_witness :
    mergeRemoteRefer ext9 conf9 = .ok (applyRemoteEntries conf9 rem9) ∧
    lookupKey (applyRemoteEntries conf9 rem9) "host" = some (.vStr "h0") ∧
    lookupKey (applyRemoteEntries conf9 rem9) "protocol" = some (.vStr "sftp") ∧
    lookupKey (applyRemoteEntries conf9 rem9) "rootPath" = none ∧
    lookupKey (applyRemoteEntries conf9 rem9) "port" = some (.vNum 2222) ∧
    mergeRemoteRefer extBase conf9 =
      .error ("Cannot find remote configuration for \"" ++ "r1" ++ "\".") := by
  obtain ⟨_, hok, hdef, hundef⟩ :=
    c9_mergeRemoteRefer_spec ext9 conf9 "r1" rfl (by decide)
  obtain ⟨he2, _, _, _⟩ :=
    c9_mergeRemoteRefer_spec extBase conf9 "r1" rfl (by decide)
  exact ⟨hok rem9 rfl, hdef rem9 "host" (.vStr "h0") rfl,
    (hundef rem9 "protocol" rfl).trans rfl,
    (hundef rem9 "rootPath" rfl).trans rfl,
    (hundef rem9 "port" rfl).trans rfl,
    he2 rfl⟩

/-- C10: `validateConfig` always returns an object with a string `message` —
the schema error's message when validation fails, `"Validation passed."`
when it succeeds — and never `undefined`, `null` or any other falsy value
(`none` in this model). -/
theorem c10_validateConfig_total (jv : ConfigObj → Option JoiError)
    (c : ConfigObj) :
    validateConfig jv c =
      some { message := match jv c with
                        | some e => e.message
                        | none => "Validation passed." } := by
  unfold validateConfig
  cases jv c <;> rfl

end VSftp
